import Mathlib

/-! Verification of the versioned publish/archive protocol (`smart_upload`) of the
ISTAT/EUROSTAT data-pipeline application (`main.py`).

The file store (Google Drive in the source) is modelled as a list of stored
files; each store operation used by `smart_upload` (`find_file_by_name`,
`get_metadata_from_excel`, `move_file_to_archive`, `upload_excel_to_drive`)
becomes a pure function on that list.  The ambient world — the wall clock
(`datetime.now()`), the date parser (`pandas.to_datetime`, an external
library treated as a collaborator), and fault injection for the archive move
— is collected in an `Env` record.  Calls to the Archiver and the uploader
are additionally recorded in an event trace so that "no Archiver call was
made" is expressible.
-/

/-! Section: Python string primitives used by the source -/

/-- Python `str.replace(pat, rep)` scan: left-to-right, non-overlapping.
Fuel-driven so that it reduces in the kernel; one unit of fuel is spent per
consumed character, so `s.length` fuel always suffices for a non-empty
pattern. -/
def replaceGo (pat rep : List Char) : List Char → Nat → List Char
  | l, 0 => l
  | [], _ => []
  | c :: cs, fuel + 1 =>
    if pat.isPrefixOf (c :: cs) then
      rep ++ replaceGo pat rep ((c :: cs).drop pat.length) fuel
    else
      c :: replaceGo pat rep cs fuel

/-- Python `s.replace(pat, rep)` for a non-empty pattern (the source only
ever replaces the literal `"_LATEST"` and `"-"`). -/
def pyReplace (s pat rep : String) : String :=
  if pat.data = [] then s else ⟨replaceGo pat.data rep.data s.data s.data.length⟩

/-- Python slicing `s[:n]` (first `n` characters). -/
def pyTake (s : String) (n : Nat) : String := ⟨s.data.take n⟩

/-- Python `str.strip()`: remove leading and trailing whitespace. -/
def pyStrip (s : String) : String :=
  ⟨((s.data.dropWhile Char.isWhitespace).reverse.dropWhile Char.isWhitespace).reverse⟩

/-- Python truthiness of an optional string: `None` and `""` are falsy. -/
def optTruthy : Option String → Bool
  | none => false
  | some s => s != ""

/-! Section: Time formatting (`strftime`) -/

/-- Two-digit zero-padded decimal, as in `strftime("%m")`. -/
def pad2 (n : Nat) : String := if n < 10 then "0" ++ toString n else toString n

/-- Four-digit zero-padded decimal, as in `strftime("%Y")`. -/
def pad4 (n : Nat) : String :=
  if n < 10 then "000" ++ toString n
  else if n < 100 then "00" ++ toString n
  else if n < 1000 then "0" ++ toString n
  else toString n

/-- Month token `strftime("%YM%m")`, e.g. `"2025M12"`. -/
def formatMonth (y m : Nat) : String := pad4 y ++ "M" ++ pad2 m

/-! Section: A concrete date parser for witnesses

`smart_upload` calls `pandas.to_datetime` on the stored `download_date` and
keeps only the year and month (`strftime("%YM%m")`).  The parser is an
external library, so the embedding takes it as a parameter
(`Env.toDatetime : String → Option (Nat × Nat)`, year and month, `none` on
parse failure).  For concrete witnesses we instantiate it with the parser
below, which models `pandas.to_datetime` restricted to ISO
`"YYYY-MM-DD"` / `"YYYY-MM-DD HH:MM:SS"` inputs — the format the pipelines
of this repository write (`datetime.now().strftime("%Y-%m-%d %H:%M:%S")`). -/

def digitVal (c : Char) : Nat := c.toNat - '0'.toNat

def isLeap (y : Nat) : Bool := (y % 4 == 0 && y % 100 != 0) || y % 400 == 0

def daysInMonth (y m : Nat) : Nat :=
  if m == 2 then (if isLeap y then 29 else 28)
  else if m == 4 || m == 6 || m == 9 || m == 11 then 30
  else 31

def validTimePart : List Char → Bool
  | [] => true
  | [h1, h2, ':', mi1, mi2, ':', s1, s2] =>
    ([h1, h2, mi1, mi2, s1, s2].all Char.isDigit) &&
    decide (digitVal h1 * 10 + digitVal h2 < 24) &&
    decide (digitVal mi1 * 10 + digitVal mi2 < 60) &&
    decide (digitVal s1 * 10 + digitVal s2 < 60)
  | _ => false

def isoToDatetime (s : String) : Option (Nat × Nat) :=
  match s.data with
  | y1 :: y2 :: y3 :: y4 :: '-' :: mo1 :: mo2 :: '-' :: d1 :: d2 :: rest =>
    if ([y1, y2, y3, y4, mo1, mo2, d1, d2].all Char.isDigit) then
      let y := digitVal y1 * 1000 + digitVal y2 * 100 + digitVal y3 * 10 + digitVal y4
      let mo := digitVal mo1 * 10 + digitVal mo2
      let d := digitVal d1 * 10 + digitVal d2
      if decide (1 ≤ mo) && decide (mo ≤ 12) && decide (1 ≤ d) &&
         decide (d ≤ daysInMonth y mo) &&
         (match rest with
          | [] => true
          | ' ' :: t => validTimePart t
          | _ => false) then
        some (y, mo)
      else none
    else none
  | _ => none

/-! Section: Data model -/

/-- Metadata embedded in an artifact's `Metadati` sheet, as returned by
`get_metadata_from_excel`: each recognized key is either absent (`None`) or
a string. -/
structure Metadata where
  edition : Option String
  edition_type : Option String
  download_date : Option String
deriving Repr, DecidableEq

/-- One file in the store: Drive file id, current name, parent folder, and
the metadata embedded in its content. -/
structure StoredFile where
  fid : Nat
  name : String
  folder : String
  meta : Metadata
deriving Repr, DecidableEq

/-- The file store: the list of all files, in creation order. -/
abbrev Store := List StoredFile

/-- The ambient world of one `smart_upload` run: the wall clock
(`datetime.now()`, split into calendar fields and preformatted timestamp
strings), the external date parser, fault injection for the archive move
step, and the id the store will assign to a newly created file. -/
structure Env where
  nowYear : Nat
  nowMonth : Nat
  /-- Clock value `datetime.now().strftime("%Y-%m-%d %H:%M:%S")`. -/
  timestamp : String
  /-- Clock value `datetime.now().strftime("%Y%m%d_%H%M%S")`, used by the no-metadata
  fallback. -/
  fallbackTimestamp : String
  /-- Model of `pandas.to_datetime` followed by extraction of (year, month);
  `none` models a parse exception. -/
  toDatetime : String → Option (Nat × Nat)
  /-- Fault injection: does the store's move/rename operation succeed? -/
  archiveOk : Bool
  /-- Id assigned by the store to a file created during this run. -/
  freshId : Nat

/-- Observable calls made by `smart_upload` against its collaborators. -/
inductive Event where
  /-- Call of `move_file_to_archive` on this file id with this version
  suffix (recorded whether or not the move succeeded). -/
  | moveCall (fid : Nat) (version_suffix : String)
  /-- The `WARNING: No edition or download_date found` diagnostic. -/
  | warnNoMetadata
  /-- Call of `upload_excel_to_drive` with this name and folder. -/
  | uploadCall (name folder : String)
deriving Repr, DecidableEq

/-- The result dict of `smart_upload` (the `web_link` field, an opaque URL
minted by the store, is omitted). -/
inductive Outcome where
  | updated (version_type version_value filename : String) (file_id : Nat)
      (folder_id : String) (timestamp : String)
  | notUpdated (version_type version_value filename : String) (timestamp : String)
  | error (reason : String) (timestamp : String)
deriving Repr, DecidableEq

/-- The `status` field of the result dict. -/
def Outcome.status : Outcome → String
  | updated _ _ _ _ _ _ => "updated"
  | notUpdated _ _ _ _ => "not_updated"
  | error _ _ => "error"

/-! Section: Store operations (`main.py` lines 62–158) -/

/-- Model of `find_file_by_name`: first file with the given name in the given
folder, if any (the Drive query's `files[0]`). -/
def find_file_by_name (filename folder_id : String) (st : Store) : Option StoredFile :=
  st.find? (fun f => f.name == filename && f.folder == folder_id)

/-- Model of `get_metadata_from_excel`: the metadata embedded in the file with the
given id; the source's exception path returns the all-`None` dict, which we
reuse when the id is unknown. -/
def get_metadata_from_excel (file_id : Nat) (st : Store) : Metadata :=
  match st.find? (fun f => f.fid == file_id) with
  | some f => f.meta
  | none => ⟨none, none, none⟩

/-- The archived filename: `filename.replace('_LATEST', '_' + version_suffix)`. -/
def archivedName (filename version_suffix : String) : String :=
  pyReplace filename "_LATEST" ("_" ++ version_suffix)

/-- Model of `move_file_to_archive`: rename the file to its archived name and move it
to the archive folder in one update, returning `True` on success.  `ok` is
the fault-injection flag: when the store operation fails, the function
returns `False` and the store is unchanged (the source's single `update`
call either happens or raises). -/
def move_file_to_archive (file_id : Nat) (filename version_suffix archive_folder_id : String)
    (ok : Bool) (st : Store) : Bool × Store :=
  if ok then
    (true, st.map fun f =>
      if f.fid == file_id then
        { f with name := archivedName filename version_suffix, folder := archive_folder_id }
      else f)
  else (false, st)

/-- Model of `upload_excel_to_drive`: create a new file with the buffer's content in
the given folder and return its id.  The buffer is represented by the
metadata its `Metadati` sheet embeds, which is all later runs ever read. -/
def upload_excel_to_drive (bufMeta : Metadata) (filename folder_id : String)
    (fresh_id : Nat) (st : Store) : Nat × Store :=
  (fresh_id, st ++ [⟨fresh_id, filename, folder_id, bufMeta⟩])

/-! Section: The Version Resolver (`main.py` lines 184–242) -/

/-- Line 188 of `main.py`: `edition is not None and str(edition).strip() != ''`. -/
def hasEditionB : Option String → Bool
  | none => false
  | some e => pyStrip e != ""

/-- The decision computed for an occupied slot: the existing occupant's
version suffix, the `should_archive` flag, and whether the no-metadata
warning was emitted. -/
structure Resolution where
  suffix : String
  should_archive : Bool
  warned : Bool
deriving Repr, DecidableEq

/-- Lines 210–242 of `main.py`: branch on the existing occupant's metadata.
`has_edition`, `new_version_value` and `current_month` are the values
computed at lines 184–191. -/
def resolveExisting (has_edition : Bool) (new_version_value current_month fallback_timestamp : String)
    (toDT : String → Option (Nat × Nat)) (m : Metadata) : Resolution :=
  if m.edition_type = some "Edition" ∧ optTruthy m.edition = true then
    { suffix := m.edition.getD "" ++ "_Edition",
      should_archive := if has_edition then m.edition.getD "" != new_version_value else true,
      warned := false }
  else if m.edition_type = some "DateDownload" then
    if optTruthy m.download_date = true then
      match toDT (m.download_date.getD "") with
      | some (y, mo) =>
        { suffix := formatMonth y mo ++ "_DateDownload",
          should_archive := formatMonth y mo != current_month,
          warned := false }
      | none =>
        { suffix := pyReplace (pyTake (m.download_date.getD "") 7) "-" "M" ++ "_DateDownload",
          should_archive := true,
          warned := false }
    else
      { suffix := "unknown_DateDownload", should_archive := true, warned := false }
  else if optTruthy m.edition = true then
    { suffix := m.edition.getD "" ++ "_Edition",
      should_archive := if has_edition then m.edition.getD "" != new_version_value else true,
      warned := false }
  else
    { suffix := fallback_timestamp ++ "_ErrorNoMetadata", should_archive := true, warned := true }

/-- The resolver applied with the candidate-side values `smart_upload`
computes at lines 184–191 from the declared `edition` and the clock. -/
def resolveFor (edition : Option String) (env : Env) (m : Metadata) : Resolution :=
  resolveExisting (hasEditionB edition)
    (if hasEditionB edition then edition.getD "" else formatMonth env.nowYear env.nowMonth)
    (formatMonth env.nowYear env.nowMonth) env.fallbackTimestamp env.toDatetime m

/-- Model of `smart_upload` (lines 161–283): the whole publish/archive protocol for
one candidate artifact.  Returns the result dict, the store after the run,
and the trace of collaborator calls. -/
def smart_upload (bufMeta : Metadata) (filename : String) (edition : Option String)
    (folder_id archive_folder_id : String) (env : Env) (st : Store) :
    Outcome × Store × List Event :=
  let current_month := formatMonth env.nowYear env.nowMonth
  let has_edition := hasEditionB edition
  let new_version_type := if has_edition then "Edition" else "DateDownload"
  let new_version_value := if has_edition then edition.getD "" else current_month
  match find_file_by_name filename folder_id st with
  | some existing_file =>
    let r := resolveFor edition env (get_metadata_from_excel existing_file.fid st)
    let warnTrace : List Event := if r.warned then [Event.warnNoMetadata] else []
    if r.should_archive = false then
      (Outcome.notUpdated new_version_type new_version_value filename env.timestamp,
       st, warnTrace)
    else
      let mres := move_file_to_archive existing_file.fid filename r.suffix
        archive_folder_id env.archiveOk st
      if mres.1 = false then
        (Outcome.error "Failed to archive old file" env.timestamp, mres.2,
         warnTrace ++ [Event.moveCall existing_file.fid r.suffix])
      else
        let ures := upload_excel_to_drive bufMeta filename folder_id env.freshId mres.2
        (Outcome.updated new_version_type new_version_value filename ures.1 folder_id
           env.timestamp,
         ures.2,
         warnTrace ++ [Event.moveCall existing_file.fid r.suffix,
                       Event.uploadCall filename folder_id])
  | none =>
    let ures := upload_excel_to_drive bufMeta filename folder_id env.freshId st
    (Outcome.updated new_version_type new_version_value filename ures.1 folder_id
       env.timestamp,
     ures.2, [Event.uploadCall filename folder_id])

/-- Candidate artifacts produced by the pipelines of this repository embed a
`Metadati` sheet consistent with their declared versioning intent: an
Edition pipeline writes `edition_type = "Edition"` and its own edition
string; a DateDownload pipeline writes `edition_type = "DateDownload"` and
`download_date = now`, which parses back to the current calendar month. -/
def candidateWellFormed (bufMeta : Metadata) (edition : Option String) (env : Env) : Prop :=
  if hasEditionB edition then
    bufMeta.edition_type = some "Edition" ∧ bufMeta.edition = edition
  else
    bufMeta.edition_type = some "DateDownload" ∧
    optTruthy bufMeta.download_date = true ∧
    env.toDatetime (bufMeta.download_date.getD "") = some (env.nowYear, env.nowMonth)

/-! Section: Concrete fixtures for witnesses -/

/-- A concrete environment: early December 2025, ISO date parser, archive
move succeeding, fresh file id 100. -/
def env0 : Env :=
  { nowYear := 2025, nowMonth := 12,
    timestamp := "2025-12-03 11:00:00",
    fallbackTimestamp := "20251203_110000",
    toDatetime := isoToDatetime,
    archiveOk := true, freshId := 100 }

/-- The same environment with the archive move step fault-injected to fail. -/
def envFail : Env := { env0 with archiveOk := false }

/-- An occupant carrying Edition metadata `"2025M10"`. -/
def mEd10 : Metadata := ⟨some "2025M10", some "Edition", some "2025-10-05 09:00:00"⟩

/-- A store whose slot `("X_LATEST.xlsx", "main")` holds file 1 with
Edition `"2025M10"` metadata. -/
def stEd10 : Store := [⟨1, "X_LATEST.xlsx", "main", mEd10⟩]

/-- A DateDownload occupant fetched in November 2025. -/
def mDDnov : Metadata := ⟨some "", some "DateDownload", some "2025-11-03 11:00:00"⟩

/-- A DateDownload occupant fetched in December 2025. -/
def mDDdec : Metadata := ⟨some "", some "DateDownload", some "2025-12-03 11:00:00"⟩

/-- Slot occupied by the November occupant. -/
def stNov : Store := [⟨1, "X_LATEST.xlsx", "main", mDDnov⟩]

/-- Slot occupied by the December occupant. -/
def stDec : Store := [⟨1, "X_LATEST.xlsx", "main", mDDdec⟩]

/-! Section: Unfolding lemmas for the three run shapes -/

theorem smart_upload_skip_eq (bufMeta : Metadata) (filename : String) (edition : Option String)
    (folder_id archive_folder_id : String) (env : Env) (st : Store) (f : StoredFile)
    (hfind : find_file_by_name filename folder_id st = some f)
    (hskip : (resolveFor edition env (get_metadata_from_excel f.fid st)).should_archive = false) :
    smart_upload bufMeta filename edition folder_id archive_folder_id env st =
      (Outcome.notUpdated (if hasEditionB edition then "Edition" else "DateDownload")
         (if hasEditionB edition then edition.getD "" else formatMonth env.nowYear env.nowMonth)
         filename env.timestamp,
       st,
       if (resolveFor edition env (get_metadata_from_excel f.fid st)).warned then
         [Event.warnNoMetadata] else []) := by
  simp only [smart_upload, hfind, hskip, if_true]

theorem smart_upload_archive_fail_eq (bufMeta : Metadata) (filename : String)
    (edition : Option String) (folder_id archive_folder_id : String) (env : Env) (st : Store)
    (f : StoredFile)
    (hfind : find_file_by_name filename folder_id st = some f)
    (harch : (resolveFor edition env (get_metadata_from_excel f.fid st)).should_archive = true)
    (hko : env.archiveOk = false) :
    smart_upload bufMeta filename edition folder_id archive_folder_id env st =
      (Outcome.error "Failed to archive old file" env.timestamp,
       st,
       (if (resolveFor edition env (get_metadata_from_excel f.fid st)).warned then
          [Event.warnNoMetadata] else []) ++
         [Event.moveCall f.fid
            (resolveFor edition env (get_metadata_from_excel f.fid st)).suffix]) := by
  simp only [smart_upload, hfind, harch, hko, move_file_to_archive, if_false,
    Bool.true_eq_false, Bool.false_eq_true, ite_false, ite_true]

theorem smart_upload_replace_eq (bufMeta : Metadata) (filename : String)
    (edition : Option String) (folder_id archive_folder_id : String) (env : Env) (st : Store)
    (f : StoredFile)
    (hfind : find_file_by_name filename folder_id st = some f)
    (harch : (resolveFor edition env (get_metadata_from_excel f.fid st)).should_archive = true)
    (hok : env.archiveOk = true) :
    smart_upload bufMeta filename edition folder_id archive_folder_id env st =
      (Outcome.updated (if hasEditionB edition then "Edition" else "DateDownload")
         (if hasEditionB edition then edition.getD "" else formatMonth env.nowYear env.nowMonth)
         filename env.freshId folder_id env.timestamp,
       (st.map fun g =>
         if g.fid == f.fid then
           { g with
               name := archivedName filename
                 (resolveFor edition env (get_metadata_from_excel f.fid st)).suffix,
               folder := archive_folder_id }
         else g) ++ [⟨env.freshId, filename, folder_id, bufMeta⟩],
       (if (resolveFor edition env (get_metadata_from_excel f.fid st)).warned then
          [Event.warnNoMetadata] else []) ++
         [Event.moveCall f.fid
            (resolveFor edition env (get_metadata_from_excel f.fid st)).suffix,
          Event.uploadCall filename folder_id]) := by
  simp only [smart_upload, hfind, harch, hok, move_file_to_archive, upload_excel_to_drive,
    if_true, Bool.true_eq_false, ite_false, ite_true]

theorem smart_upload_first_write_eq (bufMeta : Metadata) (filename : String)
    (edition : Option String) (folder_id archive_folder_id : String) (env : Env) (st : Store)
    (habsent : find_file_by_name filename folder_id st = none) :
    smart_upload bufMeta filename edition folder_id archive_folder_id env st =
      (Outcome.updated (if hasEditionB edition then "Edition" else "DateDownload")
         (if hasEditionB edition then edition.getD "" else formatMonth env.nowYear env.nowMonth)
         filename env.freshId folder_id env.timestamp,
       st ++ [⟨env.freshId, filename, folder_id, bufMeta⟩],
       [Event.uploadCall filename folder_id]) := by
  simp only [smart_upload, habsent, upload_excel_to_drive]

/-! Section: Claims -/

/-- C6: when no file with the candidate's filename exists in the target
folder, `smart_upload` publishes the candidate as a first write with the
`updated` outcome and never invokes `move_file_to_archive`. -/
theorem smart_upload_first_write_publishes_without_archiver
    (bufMeta : Metadata) (filename : String) (edition : Option String)
    (folder_id archive_folder_id : String) (env : Env) (st : Store)
    (habsent : find_file_by_name filename folder_id st = none) :
    (smart_upload bufMeta filename edition folder_id archive_folder_id env st).1.status
        = "updated" ∧
    (smart_upload bufMeta filename edition folder_id archive_folder_id env st).2.1
        = st ++ [⟨env.freshId, filename, folder_id, bufMeta⟩] ∧
    ∀ i s, Event.moveCall i s ∉
      (smart_upload bufMeta filename edition folder_id archive_folder_id env st).2.2 := by
  rw [smart_upload_first_write_eq bufMeta filename edition folder_id archive_folder_id env st
    habsent]
  refine ⟨rfl, rfl, ?_⟩
  intro i s h
  simp at h

/-- Witness for C6: a first write into an empty store. -/
theorem smart_upload_first_write_publishes_without_archiver_witness :
    find_file_by_name "X_LATEST.xlsx" "main" [] = none ∧
    ((smart_upload mEd10 "X_LATEST.xlsx" (some "2025M10") "main" "arch" env0 []).1.status
        = "updated" ∧
     (smart_upload mEd10 "X_LATEST.xlsx" (some "2025M10") "main" "arch" env0 []).2.1
        = [⟨env0.freshId, "X_LATEST.xlsx", "main", mEd10⟩] ∧
     ∀ i s, Event.moveCall i s ∉
       (smart_upload mEd10 "X_LATEST.xlsx" (some "2025M10") "main" "arch" env0 []).2.2) :=
  ⟨rfl, smart_upload_first_write_publishes_without_archiver mEd10 "X_LATEST.xlsx"
    (some "2025M10") "main" "arch" env0 [] rfl⟩

/-- C1: when the slot is occupied, the decision is Replace, and the archive
move fails, `smart_upload` returns an `error` outcome, never calls the
uploader, and leaves the file store exactly as it was (old occupant
untouched, no new occupant created). -/
theorem smart_upload_archive_failure_aborts
    (bufMeta : Metadata) (filename : String) (edition : Option String)
    (folder_id archive_folder_id : String) (env : Env) (st : Store) (f : StoredFile)
    (hfind : find_file_by_name filename folder_id st = some f)
    (harch : (resolveFor edition env (get_metadata_from_excel f.fid st)).should_archive = true)
    (hko : env.archiveOk = false) :
    (smart_upload bufMeta filename edition folder_id archive_folder_id env st).1.status
        = "error" ∧
    (smart_upload bufMeta filename edition folder_id archive_folder_id env st).2.1 = st ∧
    ∀ n fo, Event.uploadCall n fo ∉
      (smart_upload bufMeta filename edition folder_id archive_folder_id env st).2.2 := by
  rw [smart_upload_archive_fail_eq bufMeta filename edition folder_id archive_folder_id env st
    f hfind harch hko]
  refine ⟨rfl, rfl, ?_⟩
  intro n fo h
  rw [List.mem_append] at h
  rcases h with h | h
  · split at h <;> simp_all
  · simp_all

/-- Witness for C1: occupied slot with Edition `"2025M10"`, candidate
edition `"2025M11"` (so the decision is Replace), archive move
fault-injected to fail. -/
theorem smart_upload_archive_failure_aborts_witness :
    find_file_by_name "X_LATEST.xlsx" "main" stEd10 = some ⟨1, "X_LATEST.xlsx", "main", mEd10⟩ ∧
    (resolveFor (some "2025M11") envFail
        (get_metadata_from_excel 1 stEd10)).should_archive = true ∧
    envFail.archiveOk = false ∧
    ((smart_upload mEd10 "X_LATEST.xlsx" (some "2025M11") "main" "arch" envFail stEd10).1.status
        = "error" ∧
     (smart_upload mEd10 "X_LATEST.xlsx" (some "2025M11") "main" "arch" envFail stEd10).2.1
        = stEd10 ∧
     ∀ n fo, Event.uploadCall n fo ∉
       (smart_upload mEd10 "X_LATEST.xlsx" (some "2025M11") "main" "arch" envFail stEd10).2.2) :=
  ⟨by decide, by decide, rfl,
   smart_upload_archive_failure_aborts mEd10 "X_LATEST.xlsx" (some "2025M11") "main" "arch"
     envFail stEd10 ⟨1, "X_LATEST.xlsx", "main", mEd10⟩ (by decide) (by decide) rfl⟩

/-- C4: an occupant of Edition kind (edition_type `"Edition"` with a
non-empty edition value) and a candidate with no edition always resolve to
Replace, regardless of the occupant's edition value and of the current
month; `smart_upload` then archives and replaces (never `not_updated`). -/
theorem smart_upload_scheme_switch_replaces
    (bufMeta : Metadata) (filename : String) (edition : Option String)
    (folder_id archive_folder_id : String) (env : Env) (st : Store)
    (f : StoredFile) (m : Metadata) (e : String)
    (hfind : find_file_by_name filename folder_id st = some f)
    (hm : get_metadata_from_excel f.fid st = m)
    (hmt : m.edition_type = some "Edition")
    (hme : m.edition = some e)
    (he : e ≠ "")
    (hcand : hasEditionB edition = false) :
    (resolveFor edition env m).should_archive = true ∧
    (resolveFor edition env m).suffix = e ++ "_Edition" ∧
    (smart_upload bufMeta filename edition folder_id archive_folder_id env st).1.status
        ≠ "not_updated" ∧
    (env.archiveOk = true →
      (smart_upload bufMeta filename edition folder_id archive_folder_id env st).1.status
        = "updated") := by
  have hres : resolveFor edition env m =
      { suffix := e ++ "_Edition", should_archive := true, warned := false } := by
    rw [resolveFor, resolveExisting, if_pos ⟨hmt, by rw [hme]; simp [optTruthy, he]⟩,
      hme, hcand]
    simp
  have harch : (resolveFor edition env (get_metadata_from_excel f.fid st)).should_archive
      = true := by rw [hm, hres]
  refine ⟨by rw [hres], by rw [hres], ?_, ?_⟩
  · rcases hok : env.archiveOk with _ | _
    · rw [smart_upload_archive_fail_eq bufMeta filename edition folder_id archive_folder_id
        env st f hfind harch hok]
      simp [Outcome.status]
    · rw [smart_upload_replace_eq bufMeta filename edition folder_id archive_folder_id
        env st f hfind harch hok]
      simp [Outcome.status]
  · intro hok
    rw [smart_upload_replace_eq bufMeta filename edition folder_id archive_folder_id
      env st f hfind harch hok]
    rfl

/-- Witness for C4: Edition occupant `"2025M10"`, candidate with
`edition = None`. -/
theorem smart_upload_scheme_switch_replaces_witness :
    find_file_by_name "X_LATEST.xlsx" "main" stEd10 = some ⟨1, "X_LATEST.xlsx", "main", mEd10⟩ ∧
    get_metadata_from_excel 1 stEd10 = mEd10 ∧
    mEd10.edition_type = some "Edition" ∧ mEd10.edition = some "2025M10" ∧
    ("2025M10" : String) ≠ "" ∧ hasEditionB none = false ∧
    ((resolveFor none env0 mEd10).should_archive = true ∧
     (resolveFor none env0 mEd10).suffix = "2025M10" ++ "_Edition" ∧
     (smart_upload mEd10 "X_LATEST.xlsx" none "main" "arch" env0 stEd10).1.status
        ≠ "not_updated" ∧
     (env0.archiveOk = true →
       (smart_upload mEd10 "X_LATEST.xlsx" none "main" "arch" env0 stEd10).1.status
          = "updated")) :=
  ⟨by decide, rfl, rfl, rfl, by decide, rfl,
   smart_upload_scheme_switch_replaces mEd10 "X_LATEST.xlsx" none "main" "arch" env0 stEd10
     ⟨1, "X_LATEST.xlsx", "main", mEd10⟩ mEd10 "2025M10"
     (by decide) rfl rfl rfl (by decide) rfl⟩

/-- C5: an Edition-kind occupant and a candidate with a non-empty edition
resolve to Replace whenever the two edition strings differ — whole-string
inequality only, no semantic ordering, so a regression to an older edition
string also triggers replacement. -/
theorem smart_upload_edition_inequality_replaces
    (bufMeta : Metadata) (filename : String)
    (folder_id archive_folder_id : String) (env : Env) (st : Store)
    (f : StoredFile) (m : Metadata) (e cand : String)
    (hfind : find_file_by_name filename folder_id st = some f)
    (hm : get_metadata_from_excel f.fid st = m)
    (hmt : m.edition_type = some "Edition")
    (hme : m.edition = some e)
    (he : e ≠ "")
    (hcand : pyStrip cand ≠ "")
    (hne : e ≠ cand) :
    (resolveFor (some cand) env m).should_archive = true ∧
    (resolveFor (some cand) env m).suffix = e ++ "_Edition" ∧
    (smart_upload bufMeta filename (some cand) folder_id archive_folder_id env st).1.status
        ≠ "not_updated" ∧
    (env.archiveOk = true →
      (smart_upload bufMeta filename (some cand) folder_id archive_folder_id env st).1.status
        = "updated") := by
  have hhe : hasEditionB (some cand) = true := by simp [hasEditionB, hcand]
  have hres : resolveFor (some cand) env m =
      { suffix := e ++ "_Edition", should_archive := true, warned := false } := by
    rw [resolveFor, resolveExisting, if_pos ⟨hmt, by rw [hme]; simp [optTruthy, he]⟩,
      hme, hhe]
    simp [hne]
  have harch : (resolveFor (some cand) env (get_metadata_from_excel f.fid st)).should_archive
      = true := by rw [hm, hres]
  refine ⟨by rw [hres], by rw [hres], ?_, ?_⟩
  · rcases hok : env.archiveOk with _ | _
    · rw [smart_upload_archive_fail_eq bufMeta filename (some cand) folder_id
        archive_folder_id env st f hfind harch hok]
      simp [Outcome.status]
    · rw [smart_upload_replace_eq bufMeta filename (some cand) folder_id archive_folder_id
        env st f hfind harch hok]
      simp [Outcome.status]
  · intro hok
    rw [smart_upload_replace_eq bufMeta filename (some cand) folder_id archive_folder_id
      env st f hfind harch hok]
    rfl

/-- Witness for C5: existing edition `"2025M10"`, candidate edition
`"2025M09"` — a regression to an older edition string still replaces. -/
theorem smart_upload_edition_inequality_replaces_witness :
    find_file_by_name "X_LATEST.xlsx" "main" stEd10 = some ⟨1, "X_LATEST.xlsx", "main", mEd10⟩ ∧
    get_metadata_from_excel 1 stEd10 = mEd10 ∧
    mEd10.edition_type = some "Edition" ∧ mEd10.edition = some "2025M10" ∧
    ("2025M10" : String) ≠ "" ∧ pyStrip "2025M09" ≠ "" ∧
    ("2025M10" : String) ≠ "2025M09" ∧
    ((resolveFor (some "2025M09") env0 mEd10).should_archive = true ∧
     (resolveFor (some "2025M09") env0 mEd10).suffix = "2025M10" ++ "_Edition" ∧
     (smart_upload mEd10 "X_LATEST.xlsx" (some "2025M09") "main" "arch" env0 stEd10).1.status
        ≠ "not_updated" ∧
     (env0.archiveOk = true →
       (smart_upload mEd10 "X_LATEST.xlsx" (some "2025M09") "main" "arch" env0 stEd10).1.status
          = "updated")) :=
  ⟨by decide, rfl, rfl, rfl, by decide, by decide, by decide,
   smart_upload_edition_inequality_replaces mEd10 "X_LATEST.xlsx" "main" "arch" env0 stEd10
     ⟨1, "X_LATEST.xlsx", "main", mEd10⟩ mEd10 "2025M10" "2025M09"
     (by decide) rfl rfl rfl (by decide) (by decide) (by decide)⟩

/-! Section: Resolution-branch helper lemmas -/

theorem resolveExisting_dd_parsed (has_edition : Bool)
    (nvv cm ft : String) (toDT : String → Option (Nat × Nat)) (m : Metadata)
    (d : String) (y mo : Nat)
    (hmt : m.edition_type = some "DateDownload")
    (hdd : m.download_date = some d) (hdne : d ≠ "")
    (hparse : toDT d = some (y, mo)) :
    resolveExisting has_edition nvv cm ft toDT m =
      { suffix := formatMonth y mo ++ "_DateDownload",
        should_archive := formatMonth y mo != cm, warned := false } := by
  have h1 : ¬(m.edition_type = some "Edition" ∧ optTruthy m.edition = true) := by
    rintro ⟨h, -⟩; rw [hmt] at h; exact absurd h (by decide)
  rw [resolveExisting, if_neg h1, if_pos hmt, hdd]
  simp [optTruthy, bne_iff_ne, hdne, hparse]

theorem resolveExisting_dd_unparseable (has_edition : Bool)
    (nvv cm ft : String) (toDT : String → Option (Nat × Nat)) (m : Metadata) (d : String)
    (hmt : m.edition_type = some "DateDownload")
    (hdd : m.download_date = some d) (hdne : d ≠ "")
    (hparse : toDT d = none) :
    resolveExisting has_edition nvv cm ft toDT m =
      { suffix := pyReplace (pyTake d 7) "-" "M" ++ "_DateDownload",
        should_archive := true, warned := false } := by
  have h1 : ¬(m.edition_type = some "Edition" ∧ optTruthy m.edition = true) := by
    rintro ⟨h, -⟩; rw [hmt] at h; exact absurd h (by decide)
  rw [resolveExisting, if_neg h1, if_pos hmt, hdd]
  simp [optTruthy, bne_iff_ne, hdne, hparse]

theorem resolveExisting_dd_no_date (has_edition : Bool)
    (nvv cm ft : String) (toDT : String → Option (Nat × Nat)) (m : Metadata)
    (hmt : m.edition_type = some "DateDownload")
    (hdd : optTruthy m.download_date = false) :
    resolveExisting has_edition nvv cm ft toDT m =
      { suffix := "unknown_DateDownload", should_archive := true, warned := false } := by
  have h1 : ¬(m.edition_type = some "Edition" ∧ optTruthy m.edition = true) := by
    rintro ⟨h, -⟩; rw [hmt] at h; exact absurd h (by decide)
  rw [resolveExisting, if_neg h1, if_pos hmt, if_neg (by rw [hdd]; exact Bool.noConfusion)]

theorem resolveExisting_fallback (has_edition : Bool)
    (nvv cm ft : String) (toDT : String → Option (Nat × Nat)) (m : Metadata)
    (hed : optTruthy m.edition = false)
    (hmt : m.edition_type ≠ some "DateDownload") :
    resolveExisting has_edition nvv cm ft toDT m =
      { suffix := ft ++ "_ErrorNoMetadata", should_archive := true, warned := true } := by
  have h1 : ¬(m.edition_type = some "Edition" ∧ optTruthy m.edition = true) := by
    rintro ⟨-, h⟩; rw [hed] at h; exact Bool.noConfusion h
  have h3 : ¬(optTruthy m.edition = true) := by rw [hed]; exact Bool.noConfusion
  rw [resolveExisting, if_neg h1, if_neg hmt, if_neg h3]

/-- C8: a DateDownload-kind occupant whose `download_date` is present but
fails to parse resolves to forced Replace with the degraded suffix built
from the raw string's first 7 characters, `-` replaced by `M`. -/
theorem smart_upload_unparseable_date_degraded_suffix
    (bufMeta : Metadata) (filename : String) (edition : Option String)
    (folder_id archive_folder_id : String) (env : Env) (st : Store)
    (f : StoredFile) (m : Metadata) (d : String)
    (hfind : find_file_by_name filename folder_id st = some f)
    (hm : get_metadata_from_excel f.fid st = m)
    (hmt : m.edition_type = some "DateDownload")
    (hdd : m.download_date = some d) (hdne : d ≠ "")
    (hparse : env.toDatetime d = none) :
    (resolveFor edition env m).should_archive = true ∧
    (resolveFor edition env m).suffix
        = pyReplace (pyTake d 7) "-" "M" ++ "_DateDownload" ∧
    (smart_upload bufMeta filename edition folder_id archive_folder_id env st).1.status
        ≠ "not_updated" := by
  have hres : resolveFor edition env m =
      { suffix := pyReplace (pyTake d 7) "-" "M" ++ "_DateDownload",
        should_archive := true, warned := false } :=
    resolveExisting_dd_unparseable _ _ _ _ _ m d hmt hdd hdne hparse
  have harch : (resolveFor edition env (get_metadata_from_excel f.fid st)).should_archive
      = true := by rw [hm, hres]
  refine ⟨by rw [hres], by rw [hres], ?_⟩
  rcases hok : env.archiveOk with _ | _
  · rw [smart_upload_archive_fail_eq bufMeta filename edition folder_id archive_folder_id
      env st f hfind harch hok]
    simp [Outcome.status]
  · rw [smart_upload_replace_eq bufMeta filename edition folder_id archive_folder_id
      env st f hfind harch hok]
    simp [Outcome.status]

/-- Witness for C8: occupant with `download_date = "not-a-date"`, which the
parser rejects; the degraded suffix is `"notMaMd_DateDownload"`. -/
theorem smart_upload_unparseable_date_degraded_suffix_witness :
    find_file_by_name "X_LATEST.xlsx" "main"
        [⟨1, "X_LATEST.xlsx", "main", ⟨none, some "DateDownload", some "not-a-date"⟩⟩]
      = some ⟨1, "X_LATEST.xlsx", "main", ⟨none, some "DateDownload", some "not-a-date"⟩⟩ ∧
    env0.toDatetime "not-a-date" = none ∧
    ((resolveFor none env0 ⟨none, some "DateDownload", some "not-a-date"⟩).should_archive
        = true ∧
     (resolveFor none env0 ⟨none, some "DateDownload", some "not-a-date"⟩).suffix
        = pyReplace (pyTake "not-a-date" 7) "-" "M" ++ "_DateDownload" ∧
     (smart_upload mEd10 "X_LATEST.xlsx" none "main" "arch" env0
        [⟨1, "X_LATEST.xlsx", "main", ⟨none, some "DateDownload", some "not-a-date"⟩⟩]).1.status
        ≠ "not_updated") :=
  ⟨by decide, by decide,
   smart_upload_unparseable_date_degraded_suffix mEd10 "X_LATEST.xlsx" none "main" "arch" env0
     [⟨1, "X_LATEST.xlsx", "main", ⟨none, some "DateDownload", some "not-a-date"⟩⟩]
     ⟨1, "X_LATEST.xlsx", "main", ⟨none, some "DateDownload", some "not-a-date"⟩⟩
     ⟨none, some "DateDownload", some "not-a-date"⟩ "not-a-date"
     (by decide) rfl rfl rfl (by decide) (by decide)⟩

/-- C9: an occupant whose `edition_type` is not `"DateDownload"` and whose
edition value is empty or missing is routed to the no-metadata fallback —
suffix `<fallback-timestamp>_ErrorNoMetadata`, forced Replace, warning —
even when a `download_date` is present: the resolution never consults
`download_date` in this case. -/
theorem smart_upload_empty_edition_routes_to_fallback
    (bufMeta : Metadata) (filename : String) (edition : Option String)
    (folder_id archive_folder_id : String) (env : Env) (st : Store)
    (f : StoredFile) (m : Metadata)
    (hfind : find_file_by_name filename folder_id st = some f)
    (hm : get_metadata_from_excel f.fid st = m)
    (hed : optTruthy m.edition = false)
    (hmt : m.edition_type ≠ some "DateDownload") :
    resolveFor edition env m =
      { suffix := env.fallbackTimestamp ++ "_ErrorNoMetadata",
        should_archive := true, warned := true } ∧
    (∀ dd, resolveFor edition env ⟨m.edition, m.edition_type, dd⟩ = resolveFor edition env m) ∧
    (smart_upload bufMeta filename edition folder_id archive_folder_id env st).1.status
        ≠ "not_updated" := by
  have hres : resolveFor edition env m =
      { suffix := env.fallbackTimestamp ++ "_ErrorNoMetadata",
        should_archive := true, warned := true } :=
    resolveExisting_fallback _ _ _ _ _ m hed hmt
  have harch : (resolveFor edition env (get_metadata_from_excel f.fid st)).should_archive
      = true := by rw [hm, hres]
  refine ⟨hres, ?_, ?_⟩
  · intro dd
    rw [hres]
    exact resolveExisting_fallback _ _ _ _ _ ⟨m.edition, m.edition_type, dd⟩ hed hmt
  · rcases hok : env.archiveOk with _ | _
    · rw [smart_upload_archive_fail_eq bufMeta filename edition folder_id archive_folder_id
        env st f hfind harch hok]
      simp [Outcome.status]
    · rw [smart_upload_replace_eq bufMeta filename edition folder_id archive_folder_id
        env st f hfind harch hok]
      simp [Outcome.status]

/-- Witness for C9: occupant with `edition_type = "Edition"` but an empty
edition value and a perfectly parseable `download_date`, whose resolution
is still the no-metadata fallback. -/
theorem smart_upload_empty_edition_routes_to_fallback_witness :
    find_file_by_name "X_LATEST.xlsx" "main"
        [⟨1, "X_LATEST.xlsx", "main", ⟨some "", some "Edition", some "2025-11-03 11:00:00"⟩⟩]
      = some ⟨1, "X_LATEST.xlsx", "main", ⟨some "", some "Edition", some "2025-11-03 11:00:00"⟩⟩ ∧
    optTruthy (some "") = false ∧
    (some "Edition" : Option String) ≠ some "DateDownload" ∧
    (resolveFor none env0 ⟨some "", some "Edition", some "2025-11-03 11:00:00"⟩ =
      { suffix := env0.fallbackTimestamp ++ "_ErrorNoMetadata",
        should_archive := true, warned := true } ∧
     (∀ dd, resolveFor none env0 ⟨some "", some "Edition", dd⟩ =
        resolveFor none env0 ⟨some "", some "Edition", some "2025-11-03 11:00:00"⟩) ∧
     (smart_upload mEd10 "X_LATEST.xlsx" none "main" "arch" env0
        [⟨1, "X_LATEST.xlsx", "main",
          ⟨some "", some "Edition", some "2025-11-03 11:00:00"⟩⟩]).1.status
        ≠ "not_updated") :=
  ⟨by decide, rfl, by decide,
   smart_upload_empty_edition_routes_to_fallback mEd10 "X_LATEST.xlsx" none "main" "arch" env0
     [⟨1, "X_LATEST.xlsx", "main", ⟨some "", some "Edition", some "2025-11-03 11:00:00"⟩⟩]
     ⟨1, "X_LATEST.xlsx", "main", ⟨some "", some "Edition", some "2025-11-03 11:00:00"⟩⟩
     ⟨some "", some "Edition", some "2025-11-03 11:00:00"⟩
     (by decide) rfl rfl (by decide)⟩

/-- C10: a DateDownload-kind occupant with no `download_date` value
resolves to forced Replace under the fixed suffix `"unknown_DateDownload"`
(not the `ErrorNoMetadata` pattern, and without the no-metadata warning);
on a successful run the occupant is archived under that distinct name. -/
theorem smart_upload_dd_missing_date_unknown_suffix
    (bufMeta : Metadata) (filename : String) (edition : Option String)
    (folder_id archive_folder_id : String) (env : Env) (st : Store)
    (f : StoredFile) (m : Metadata)
    (hfind : find_file_by_name filename folder_id st = some f)
    (hm : get_metadata_from_excel f.fid st = m)
    (hmt : m.edition_type = some "DateDownload")
    (hdd : optTruthy m.download_date = false) :
    resolveFor edition env m =
      { suffix := "unknown_DateDownload", should_archive := true, warned := false } ∧
    (smart_upload bufMeta filename edition folder_id archive_folder_id env st).1.status
        ≠ "not_updated" ∧
    (env.archiveOk = true →
      (smart_upload bufMeta filename edition folder_id archive_folder_id env st).2.1
        = (st.map fun g =>
            if g.fid == f.fid then
              { g with name := archivedName filename "unknown_DateDownload",
                       folder := archive_folder_id }
            else g) ++ [⟨env.freshId, filename, folder_id, bufMeta⟩]) := by
  have hres : resolveFor edition env m =
      { suffix := "unknown_DateDownload", should_archive := true, warned := false } :=
    resolveExisting_dd_no_date _ _ _ _ _ m hmt hdd
  have harch : (resolveFor edition env (get_metadata_from_excel f.fid st)).should_archive
      = true := by rw [hm, hres]
  refine ⟨hres, ?_, ?_⟩
  · rcases hok : env.archiveOk with _ | _
    · rw [smart_upload_archive_fail_eq bufMeta filename edition folder_id archive_folder_id
        env st f hfind harch hok]
      simp [Outcome.status]
    · rw [smart_upload_replace_eq bufMeta filename edition folder_id archive_folder_id
        env st f hfind harch hok]
      simp [Outcome.status]
  · intro hok
    rw [smart_upload_replace_eq bufMeta filename edition folder_id archive_folder_id
      env st f hfind harch hok, hm, hres]

/-- Witness for C10: DateDownload occupant with `download_date` missing,
archived as `"X_unknown_DateDownload.xlsx"`. -/
theorem smart_upload_dd_missing_date_unknown_suffix_witness :
    find_file_by_name "X_LATEST.xlsx" "main"
        [⟨1, "X_LATEST.xlsx", "main", ⟨none, some "DateDownload", none⟩⟩]
      = some ⟨1, "X_LATEST.xlsx", "main", ⟨none, some "DateDownload", none⟩⟩ ∧
    optTruthy (none : Option String) = false ∧
    (resolveFor none env0 ⟨none, some "DateDownload", none⟩ =
      { suffix := "unknown_DateDownload", should_archive := true, warned := false } ∧
     (smart_upload mEd10 "X_LATEST.xlsx" none "main" "arch" env0
        [⟨1, "X_LATEST.xlsx", "main", ⟨none, some "DateDownload", none⟩⟩]).1.status
        ≠ "not_updated" ∧
     (env0.archiveOk = true →
       (smart_upload mEd10 "X_LATEST.xlsx" none "main" "arch" env0
          [⟨1, "X_LATEST.xlsx", "main", ⟨none, some "DateDownload", none⟩⟩]).2.1
         = [⟨1, archivedName "X_LATEST.xlsx" "unknown_DateDownload", "arch",
              ⟨none, some "DateDownload", none⟩⟩,
            ⟨env0.freshId, "X_LATEST.xlsx", "main", mEd10⟩])) :=
  ⟨by decide, rfl,
   smart_upload_dd_missing_date_unknown_suffix mEd10 "X_LATEST.xlsx" none "main" "arch" env0
     [⟨1, "X_LATEST.xlsx", "main", ⟨none, some "DateDownload", none⟩⟩]
     ⟨1, "X_LATEST.xlsx", "main", ⟨none, some "DateDownload", none⟩⟩
     ⟨none, some "DateDownload", none⟩
     (by decide) rfl rfl rfl⟩

/-- Counterexample to C7 as stated: the occupant `{edition: None,
edition_type: "DateDownload", download_date: None}` has neither an edition
nor a `download_date`, yet its resolution suffix is the fixed
`"unknown_DateDownload"` — not a `<timestamp>_ErrorNoMetadata` pattern —
and no no-metadata warning is recorded on the run. -/
theorem smart_upload_no_metadata_claim_counterexample :
    (⟨none, some "DateDownload", none⟩ : Metadata).edition = none ∧
    (⟨none, some "DateDownload", none⟩ : Metadata).download_date = none ∧
    (resolveFor none env0 ⟨none, some "DateDownload", none⟩).should_archive = true ∧
    (resolveFor none env0 ⟨none, some "DateDownload", none⟩).suffix
      = "unknown_DateDownload" ∧
    (resolveFor none env0 ⟨none, some "DateDownload", none⟩).suffix
      ≠ env0.fallbackTimestamp ++ "_ErrorNoMetadata" ∧
    ("_ErrorNoMetadata".data.isSuffixOf
      (resolveFor none env0 ⟨none, some "DateDownload", none⟩).suffix.data) = false ∧
    (resolveFor none env0 ⟨none, some "DateDownload", none⟩).warned = false ∧
    Event.warnNoMetadata ∉
      (smart_upload mEd10 "X_LATEST.xlsx" none "main" "arch" env0
        [⟨1, "X_LATEST.xlsx", "main", ⟨none, some "DateDownload", none⟩⟩]).2.2 := by
  decide

/-- C7 (amended): an occupant whose embedded metadata contains neither an
edition nor a `download_date` **and whose `edition_type` is not
`"DateDownload"`** always resolves to Replace with suffix
`<fallback-timestamp>_ErrorNoMetadata`, and the no-metadata warning is
recorded on the run, making this path distinguishable from the normal
Replace path. -/
theorem smart_upload_no_metadata_fallback
    (bufMeta : Metadata) (filename : String) (edition : Option String)
    (folder_id archive_folder_id : String) (env : Env) (st : Store)
    (f : StoredFile) (m : Metadata)
    (hfind : find_file_by_name filename folder_id st = some f)
    (hm : get_metadata_from_excel f.fid st = m)
    (hmed : m.edition = none)
    (hmdd : m.download_date = none)
    (hmt : m.edition_type ≠ some "DateDownload") :
    resolveFor edition env m =
      { suffix := env.fallbackTimestamp ++ "_ErrorNoMetadata",
        should_archive := true, warned := true } ∧
    (smart_upload bufMeta filename edition folder_id archive_folder_id env st).1.status
        ≠ "not_updated" ∧
    Event.warnNoMetadata ∈
      (smart_upload bufMeta filename edition folder_id archive_folder_id env st).2.2 := by
  have hed : optTruthy m.edition = false := by rw [hmed]; rfl
  have hres : resolveFor edition env m =
      { suffix := env.fallbackTimestamp ++ "_ErrorNoMetadata",
        should_archive := true, warned := true } :=
    resolveExisting_fallback _ _ _ _ _ m hed hmt
  have harch : (resolveFor edition env (get_metadata_from_excel f.fid st)).should_archive
      = true := by rw [hm, hres]
  have hwarn : (resolveFor edition env (get_metadata_from_excel f.fid st)).warned
      = true := by rw [hm, hres]
  refine ⟨hres, ?_, ?_⟩
  · rcases hok : env.archiveOk with _ | _
    · rw [smart_upload_archive_fail_eq bufMeta filename edition folder_id archive_folder_id
        env st f hfind harch hok]
      simp [Outcome.status]
    · rw [smart_upload_replace_eq bufMeta filename edition folder_id archive_folder_id
        env st f hfind harch hok]
      simp [Outcome.status]
  · rcases hok : env.archiveOk with _ | _
    · rw [smart_upload_archive_fail_eq bufMeta filename edition folder_id archive_folder_id
        env st f hfind harch hok]
      simp [hwarn]
    · rw [smart_upload_replace_eq bufMeta filename edition folder_id archive_folder_id
        env st f hfind harch hok]
      simp [hwarn]

/-- Witness for the amended C7: occupant with all-`None` metadata. -/
theorem smart_upload_no_metadata_fallback_witness :
    find_file_by_name "X_LATEST.xlsx" "main"
        [⟨1, "X_LATEST.xlsx", "main", ⟨none, none, none⟩⟩]
      = some ⟨1, "X_LATEST.xlsx", "main", ⟨none, none, none⟩⟩ ∧
    (⟨none, none, none⟩ : Metadata).edition = none ∧
    (⟨none, none, none⟩ : Metadata).download_date = none ∧
    (none : Option String) ≠ some "DateDownload" ∧
    (resolveFor none env0 ⟨none, none, none⟩ =
      { suffix := env0.fallbackTimestamp ++ "_ErrorNoMetadata",
        should_archive := true, warned := true } ∧
     (smart_upload mEd10 "X_LATEST.xlsx" none "main" "arch" env0
        [⟨1, "X_LATEST.xlsx", "main", ⟨none, none, none⟩⟩]).1.status ≠ "not_updated" ∧
     Event.warnNoMetadata ∈
       (smart_upload mEd10 "X_LATEST.xlsx" none "main" "arch" env0
         [⟨1, "X_LATEST.xlsx", "main", ⟨none, none, none⟩⟩]).2.2) :=
  ⟨by decide, rfl, rfl, by decide,
   smart_upload_no_metadata_fallback mEd10 "X_LATEST.xlsx" none "main" "arch" env0
     [⟨1, "X_LATEST.xlsx", "main", ⟨none, none, none⟩⟩]
     ⟨1, "X_LATEST.xlsx", "main", ⟨none, none, none⟩⟩ ⟨none, none, none⟩
     (by decide) rfl rfl rfl (by decide)⟩

/-- C3: for an edition-less candidate against a DateDownload occupant with a
parseable `download_date`: same calendar month as now yields `not_updated`
with the store untouched; a different month yields Replace with suffix
`<that month>_DateDownload`, the occupant being renamed by substituting
`_LATEST` and moved to the archive folder. -/
theorem smart_upload_datedownload_monthly_gating
    (bufMeta : Metadata) (filename : String) (edition : Option String)
    (folder_id archive_folder_id : String) (env : Env) (st : Store)
    (f : StoredFile) (m : Metadata) (d : String) (y mo : Nat)
    (hcand : hasEditionB edition = false)
    (hfind : find_file_by_name filename folder_id st = some f)
    (hm : get_metadata_from_excel f.fid st = m)
    (hmt : m.edition_type = some "DateDownload")
    (hdd : m.download_date = some d) (hdne : d ≠ "")
    (hparse : env.toDatetime d = some (y, mo)) :
    ((y, mo) = (env.nowYear, env.nowMonth) →
      (smart_upload bufMeta filename edition folder_id archive_folder_id env st).1.status
          = "not_updated" ∧
      (smart_upload bufMeta filename edition folder_id archive_folder_id env st).2.1 = st) ∧
    (formatMonth y mo ≠ formatMonth env.nowYear env.nowMonth →
      (resolveFor edition env m).suffix = formatMonth y mo ++ "_DateDownload" ∧
      (resolveFor edition env m).should_archive = true ∧
      (smart_upload bufMeta filename edition folder_id archive_folder_id env st).1.status
          ≠ "not_updated" ∧
      (env.archiveOk = true →
        (smart_upload bufMeta filename edition folder_id archive_folder_id env st).2.1
          = (st.map fun g =>
              if g.fid == f.fid then
                { g with
                    name := archivedName filename (formatMonth y mo ++ "_DateDownload"),
                    folder := archive_folder_id }
              else g) ++ [⟨env.freshId, filename, folder_id, bufMeta⟩])) := by
  have hres : resolveFor edition env m =
      { suffix := formatMonth y mo ++ "_DateDownload",
        should_archive := formatMonth y mo != formatMonth env.nowYear env.nowMonth,
        warned := false } :=
    resolveExisting_dd_parsed _ _ _ _ _ m d y mo hmt hdd hdne hparse
  constructor
  · intro heq
    obtain ⟨hy, hmon⟩ := Prod.mk.injEq .. ▸ heq
    subst hy; subst hmon
    have hskip : (resolveFor edition env (get_metadata_from_excel f.fid st)).should_archive
        = false := by rw [hm, hres]; simp
    rw [smart_upload_skip_eq bufMeta filename edition folder_id archive_folder_id env st f
      hfind hskip]
    exact ⟨rfl, rfl⟩
  · intro hne
    have harch : (resolveFor edition env (get_metadata_from_excel f.fid st)).should_archive
        = true := by rw [hm, hres]; simp [bne_iff_ne, hne]
    refine ⟨by rw [hres], by rw [hres]; simp [bne_iff_ne, hne], ?_, ?_⟩
    · rcases hok : env.archiveOk with _ | _
      · rw [smart_upload_archive_fail_eq bufMeta filename edition folder_id archive_folder_id
          env st f hfind harch hok]
        simp [Outcome.status]
      · rw [smart_upload_replace_eq bufMeta filename edition folder_id archive_folder_id
          env st f hfind harch hok]
        simp [Outcome.status]
    · intro hok
      rw [smart_upload_replace_eq bufMeta filename edition folder_id archive_folder_id
        env st f hfind harch hok, hm, hres]

/-- Witness for C3: the spec's concrete scenario — candidate
`"X_LATEST.xlsx"` with `edition = None` and current month `"2025M12"`;
a December occupant yields `not_updated`, a November occupant yields
Replace with suffix `"2025M11_DateDownload"` and archived name
`"X_2025M11_DateDownload.xlsx"`. -/
theorem smart_upload_datedownload_monthly_gating_witness :
    hasEditionB none = false ∧
    env0.toDatetime "2025-12-03 11:00:00" = some (2025, 12) ∧
    env0.toDatetime "2025-11-03 11:00:00" = some (2025, 11) ∧
    ((smart_upload mDDdec "X_LATEST.xlsx" none "main" "arch" env0 stDec).1.status
        = "not_updated" ∧
     (smart_upload mDDdec "X_LATEST.xlsx" none "main" "arch" env0 stDec).2.1 = stDec) ∧
    ((resolveFor none env0 mDDnov).suffix = formatMonth 2025 11 ++ "_DateDownload" ∧
     (resolveFor none env0 mDDnov).should_archive = true) ∧
    (smart_upload mDDdec "X_LATEST.xlsx" none "main" "arch" env0 stNov).1.status
        ≠ "not_updated" ∧
    (smart_upload mDDdec "X_LATEST.xlsx" none "main" "arch" env0 stNov).2.1
      = [⟨1, "X_2025M11_DateDownload.xlsx", "arch", mDDnov⟩,
         ⟨100, "X_LATEST.xlsx", "main", mDDdec⟩] ∧
    formatMonth 2025 11 ++ "_DateDownload" = "2025M11_DateDownload" ∧
    archivedName "X_LATEST.xlsx" "2025M11_DateDownload" = "X_2025M11_DateDownload.xlsx" :=
  ⟨rfl, by decide, by decide,
   (smart_upload_datedownload_monthly_gating mDDdec "X_LATEST.xlsx" none "main" "arch" env0
     stDec ⟨1, "X_LATEST.xlsx", "main", mDDdec⟩ mDDdec "2025-12-03 11:00:00" 2025 12
     rfl (by decide) rfl rfl rfl (by decide) (by decide)).1 rfl,
   ⟨((smart_upload_datedownload_monthly_gating mDDdec "X_LATEST.xlsx" none "main" "arch" env0
       stNov ⟨1, "X_LATEST.xlsx", "main", mDDnov⟩ mDDnov "2025-11-03 11:00:00" 2025 11
       rfl (by decide) rfl rfl rfl (by decide) (by decide)).2 (by decide)).1,
    ((smart_upload_datedownload_monthly_gating mDDdec "X_LATEST.xlsx" none "main" "arch" env0
       stNov ⟨1, "X_LATEST.xlsx", "main", mDDnov⟩ mDDnov "2025-11-03 11:00:00" 2025 11
       rfl (by decide) rfl rfl rfl (by decide) (by decide)).2 (by decide)).2.1⟩,
   ((smart_upload_datedownload_monthly_gating mDDdec "X_LATEST.xlsx" none "main" "arch" env0
       stNov ⟨1, "X_LATEST.xlsx", "main", mDDnov⟩ mDDnov "2025-11-03 11:00:00" 2025 11
       rfl (by decide) rfl rfl rfl (by decide) (by decide)).2 (by decide)).2.2.1,
   by decide, by decide, by decide⟩

/-! Section: Idempotence -/

theorem resolveFor_self_skip (edition : Option String) (env : Env) (bufMeta : Metadata)
    (hwf : candidateWellFormed bufMeta edition env) :
    (resolveFor edition env bufMeta).should_archive = false := by
  rw [candidateWellFormed] at hwf
  rcases hhe : hasEditionB edition with _ | _
  · rw [if_neg (by rw [hhe]; exact Bool.noConfusion)] at hwf
    obtain ⟨hty, htr, hparse⟩ := hwf
    rcases hdd : bufMeta.download_date with _ | d
    · rw [hdd] at htr; exact Bool.noConfusion htr
    · have hdne : d ≠ "" := by
        rw [hdd] at htr; exact bne_iff_ne.mp htr
      rw [hdd] at hparse
      rw [resolveFor,
        resolveExisting_dd_parsed _ _ _ _ _ bufMeta d env.nowYear env.nowMonth hty hdd hdne
          hparse]
      simp
  · rw [if_pos (by rw [hhe])] at hwf
    obtain ⟨hty, hed⟩ := hwf
    rcases edition with _ | e
    · exact absurd hhe (by decide)
    · have he : e ≠ "" := by
        intro h
        subst h
        rw [show hasEditionB (some "") = false from rfl] at hhe
        exact Bool.noConfusion hhe
      rw [resolveFor, resolveExisting,
        if_pos ⟨hty, by rw [hed]; simp [optTruthy, bne_iff_ne, he]⟩, hed, hhe]
      simp

theorem find_slot_append (pre : Store) (filename folder_id : String) (nf : StoredFile)
    (hname : nf.name = filename) (hfold : nf.folder = folder_id)
    (hnone : ∀ g ∈ pre, (g.name == filename && g.folder == folder_id) = false) :
    find_file_by_name filename folder_id (pre ++ [nf]) = some nf := by
  have h1 : pre.find? (fun g => g.name == filename && g.folder == folder_id) = none :=
    List.find?_eq_none.mpr fun x hx => by rw [hnone x hx]; exact Bool.noConfusion
  rw [find_file_by_name, List.find?_append, h1, Option.none_or]
  apply List.find?_cons_of_pos
  simp [hname, hfold]

theorem get_metadata_append (pre : Store) (nf : StoredFile)
    (hfid : ∀ g ∈ pre, g.fid ≠ nf.fid) :
    get_metadata_from_excel nf.fid (pre ++ [nf]) = nf.meta := by
  have h2 : (pre ++ [nf]).find? (fun g => g.fid == nf.fid) = some nf := by
    have h1 : pre.find? (fun g => g.fid == nf.fid) = none :=
      List.find?_eq_none.mpr fun x hx => by simp [hfid x hx]
    rw [List.find?_append, h1, Option.none_or]
    apply List.find?_cons_of_pos
    simp
  rw [get_metadata_from_excel, h2]

/-- C2: running `smart_upload` twice in succession with the same well-formed
candidate (same edition, or same calendar month for an edition-less
candidate), with the archive move succeeding and the archive folder
distinct from the target folder, yields `not_updated` the second time and
leaves the store unchanged by that second run. -/
theorem smart_upload_idempotent
    (bufMeta : Metadata) (filename : String) (edition : Option String)
    (folder_id archive_folder_id : String) (env : Env) (st : Store)
    (hok : env.archiveOk = true)
    (hfolder : folder_id ≠ archive_folder_id)
    (hwf : candidateWellFormed bufMeta edition env)
    (huid : ∀ a ∈ st, a.fid ≠ env.freshId)
    (hslot : ∀ a ∈ st, ∀ b ∈ st, a.name = filename → a.folder = folder_id →
        b.name = filename → b.folder = folder_id → a = b) :
    (smart_upload bufMeta filename edition folder_id archive_folder_id env
        (smart_upload bufMeta filename edition folder_id archive_folder_id env st).2.1).1.status
      = "not_updated" ∧
    (smart_upload bufMeta filename edition folder_id archive_folder_id env
        (smart_upload bufMeta filename edition folder_id archive_folder_id env st).2.1).2.1
      = (smart_upload bufMeta filename edition folder_id archive_folder_id env st).2.1 := by
  rcases hfind : find_file_by_name filename folder_id st with _ | f
  · -- run 1 is a first write
    have hst1 : (smart_upload bufMeta filename edition folder_id archive_folder_id env st).2.1
        = st ++ [⟨env.freshId, filename, folder_id, bufMeta⟩] := by
      rw [smart_upload_first_write_eq bufMeta filename edition folder_id archive_folder_id
        env st hfind]
    rw [hst1]
    have hfind' : st.find? (fun g => g.name == filename && g.folder == folder_id) = none :=
      hfind
    have hnone : ∀ g ∈ st, (g.name == filename && g.folder == folder_id) = false := by
      intro g hg
      have := List.find?_eq_none.mp hfind' g hg
      simpa using this
    have hfind2 : find_file_by_name filename folder_id
        (st ++ [⟨env.freshId, filename, folder_id, bufMeta⟩])
        = some ⟨env.freshId, filename, folder_id, bufMeta⟩ :=
      find_slot_append st filename folder_id _ rfl rfl hnone
    have hmeta2 : get_metadata_from_excel env.freshId
        (st ++ [⟨env.freshId, filename, folder_id, bufMeta⟩]) = bufMeta :=
      get_metadata_append st ⟨env.freshId, filename, folder_id, bufMeta⟩ huid
    have hskip2 : (resolveFor edition env (get_metadata_from_excel env.freshId
        (st ++ [⟨env.freshId, filename, folder_id, bufMeta⟩]))).should_archive = false := by
      rw [hmeta2]
      exact resolveFor_self_skip edition env bufMeta hwf
    rw [smart_upload_skip_eq bufMeta filename edition folder_id archive_folder_id env
      (st ++ [(⟨env.freshId, filename, folder_id, bufMeta⟩ : StoredFile)])
      (⟨env.freshId, filename, folder_id, bufMeta⟩ : StoredFile) hfind2 hskip2]
    exact ⟨rfl, rfl⟩
  · have hfind' : st.find? (fun g => g.name == filename && g.folder == folder_id) = some f :=
      hfind
    have hmemf : f ∈ st :=
      @List.mem_of_find?_eq_some StoredFile
        (fun g => g.name == filename && g.folder == folder_id) _ _ hfind'
    have hpredf : (f.name == filename && f.folder == folder_id) = true :=
      @List.find?_some StoredFile
        (fun g => g.name == filename && g.folder == folder_id) _ _ hfind'
    have hfname : f.name = filename := by
      have := (Bool.and_eq_true _ _).mp hpredf
      exact beq_iff_eq.mp this.1
    have hffold : f.folder = folder_id := by
      have := (Bool.and_eq_true _ _).mp hpredf
      exact beq_iff_eq.mp this.2
    rcases hskip1 : (resolveFor edition env
        (get_metadata_from_excel f.fid st)).should_archive with _ | _
    · -- run 1 skips; run 2 repeats it verbatim
      have hst1 : (smart_upload bufMeta filename edition folder_id archive_folder_id env
          st).2.1 = st := by
        rw [smart_upload_skip_eq bufMeta filename edition folder_id archive_folder_id env st f
          hfind hskip1]
      rw [hst1]
      rw [smart_upload_skip_eq bufMeta filename edition folder_id archive_folder_id env st f
        hfind hskip1]
      exact ⟨rfl, rfl⟩
    · -- run 1 archives and replaces
      have hst1 : (smart_upload bufMeta filename edition folder_id archive_folder_id env
          st).2.1
          = (st.map fun x : StoredFile =>
              if x.fid == f.fid then
                { x with
                    name := archivedName filename
                      (resolveFor edition env (get_metadata_from_excel f.fid st)).suffix,
                    folder := archive_folder_id }
              else x) ++ [(⟨env.freshId, filename, folder_id, bufMeta⟩ : StoredFile)] := by
        rw [smart_upload_replace_eq bufMeta filename edition folder_id archive_folder_id env
          st f hfind hskip1 hok]
      rw [hst1]
      have hnone2 : ∀ g ∈ st.map (fun x : StoredFile =>
          if x.fid == f.fid then
            { x with
                name := archivedName filename
                  (resolveFor edition env (get_metadata_from_excel f.fid st)).suffix,
                folder := archive_folder_id }
          else x),
          (g.name == filename && g.folder == folder_id) = false := by
        intro x hx
        obtain ⟨y, hy, rfl⟩ := List.mem_map.mp hx
        by_cases hfid : (y.fid == f.fid) = true
        · rw [if_pos hfid]
          have : (archive_folder_id == folder_id) = false :=
            beq_eq_false_iff_ne.mpr (Ne.symm hfolder)
          simp [this]
        · rw [if_neg hfid]
          by_cases hpy : (y.name == filename && y.folder == folder_id) = true
          · exfalso
            have hyname : y.name = filename := by
              have := (Bool.and_eq_true _ _).mp hpy
              exact beq_iff_eq.mp this.1
            have hyfold : y.folder = folder_id := by
              have := (Bool.and_eq_true _ _).mp hpy
              exact beq_iff_eq.mp this.2
            have : y = f := hslot y hy f hmemf hyname hyfold hfname hffold
            subst this
            exact hfid (beq_self_eq_true _)
          · exact Bool.eq_false_iff.mpr hpy
      have huid2 : ∀ w ∈ st.map (fun x : StoredFile =>
          if x.fid == f.fid then
            { x with
                name := archivedName filename
                  (resolveFor edition env (get_metadata_from_excel f.fid st)).suffix,
                folder := archive_folder_id }
          else x),
          w.fid ≠ (⟨env.freshId, filename, folder_id, bufMeta⟩ : StoredFile).fid := by
        intro x hx
        obtain ⟨y, hy, rfl⟩ := List.mem_map.mp hx
        by_cases hfid : (y.fid == f.fid) = true
        · rw [if_pos hfid]
          exact huid y hy
        · rw [if_neg hfid]
          exact huid y hy
      have hfind2 := find_slot_append _ filename folder_id
        (⟨env.freshId, filename, folder_id, bufMeta⟩ : StoredFile) rfl rfl hnone2
      have hmeta2 := get_metadata_append _
        (⟨env.freshId, filename, folder_id, bufMeta⟩ : StoredFile) huid2
      have hskip2 : (resolveFor edition env (get_metadata_from_excel env.freshId
          ((st.map (fun x : StoredFile =>
            if x.fid == f.fid then
              { x with
                  name := archivedName filename
                    (resolveFor edition env (get_metadata_from_excel f.fid st)).suffix,
                  folder := archive_folder_id }
            else x)) ++ [(⟨env.freshId, filename, folder_id, bufMeta⟩ : StoredFile)]))).should_archive
          = false := by
        rw [hmeta2]
        exact resolveFor_self_skip edition env bufMeta hwf
      rw [smart_upload_skip_eq bufMeta filename edition folder_id archive_folder_id env _
        (⟨env.freshId, filename, folder_id, bufMeta⟩ : StoredFile) hfind2 hskip2]
      exact ⟨rfl, rfl⟩

/-- Witness for C2: Edition candidate `"2025M10"` published into an empty
store and immediately re-run: the second run reports `not_updated` and
changes nothing. -/
theorem smart_upload_idempotent_witness :
    env0.archiveOk = true ∧ ("main" : String) ≠ "arch" ∧
    candidateWellFormed mEd10 (some "2025M10") env0 ∧
    ((smart_upload mEd10 "X_LATEST.xlsx" (some "2025M10") "main" "arch" env0
        (smart_upload mEd10 "X_LATEST.xlsx" (some "2025M10") "main" "arch" env0 []).2.1).1.status
      = "not_updated" ∧
     (smart_upload mEd10 "X_LATEST.xlsx" (some "2025M10") "main" "arch" env0
        (smart_upload mEd10 "X_LATEST.xlsx" (some "2025M10") "main" "arch" env0 []).2.1).2.1
      = (smart_upload mEd10 "X_LATEST.xlsx" (some "2025M10") "main" "arch" env0 []).2.1) := by
  have hwf : candidateWellFormed mEd10 (some "2025M10") env0 := by
    rw [candidateWellFormed,
      if_pos (show hasEditionB (some "2025M10") = true by decide)]
    exact ⟨rfl, rfl⟩
  exact ⟨rfl, by decide, hwf,
    smart_upload_idempotent mEd10 "X_LATEST.xlsx" (some "2025M10") "main" "arch" env0 []
      rfl (by decide) hwf
      (fun a ha => absurd ha (List.not_mem_nil a))
      (fun a ha => absurd ha (List.not_mem_nil a))⟩
